import Mathlib

/-!
# Verification of homebridge-solaredge-accfactory core logic

Shallow embedding of the core of `src/index.js` (the 2025.06.15 revision,
with the 2024 revision consulted where the two differ): name sanitization,
data normalization (`#processData`), the per-site aggregation commit rule
(`#subscribeREST`), the device registry (`#processPostSubscribe`), the HTTP
retry wrapper (`fetchWrapper`), the reconnect backoff loop, the battery
characteristic updates (`updateDevice`), and `scaleValue`.

JavaScript numbers are modelled as exact rationals (`ℚ`); strings as Lean
`String`.  `toUpperCase` is modelled character-wise with `Char.toUpper`,
which agrees with JavaScript on ASCII input (all unit strings and flow-node
names compared in the source are ASCII).
-/

namespace SolarEdge

/-- Model of JavaScript `String.prototype.toUpperCase`, applied
character-wise (faithful on ASCII, which covers every comparison the
source performs: unit strings `W`/`KW`/`MW` and node names
`LOAD`/`GRID`). -/
def toUpperCase (s : String) : String :=
  ⟨s.data.map Char.toUpper⟩

/-- Model of the source's global regex replace of `-` by `.` applied to
`cpuVersion`: the pattern is a single character, so character-wise
replacement is exact. -/
def replaceDashDot (s : String) : String :=
  ⟨s.data.map (fun c => if c = '-' then '.' else c)⟩

/-- Association-list lookup used to model JavaScript object property
access (`obj[key]`), returning `none` for an absent key. -/
def lookupA {α β : Type} [DecidableEq α] (k : α) : List (α × β) → Option β
  | [] => none
  | (k', v) :: t => if k' = k then some v else lookupA k t

/-- Association-list upsert used to model JavaScript object property
assignment (`obj[key] = value`): overwrite an existing key in place,
otherwise append. -/
def upsertA {α β : Type} [DecidableEq α] (k : α) (v : β) : List (α × β) → List (α × β)
  | [] => [(k, v)]
  | (k', v') :: t => if k' = k then (k, v) :: t else (k', v') :: upsertA k v t


/-! ## Name sanitization (`makeHomeKitName`)

The source (2024 revision, `makeHomeKitName`; the 2025 revision calls the
identical sanitizer in `HomeKitDevice.js`) applies three regex passes:

1. `replace(/[^\p{L}\p{N}\p{Z}’.,-]/gu, '')` — keep only letters,
   numbers, separators, the right single quote, `.`, `,`, `-`;
2. `replace(/^[^\p{L}\p{N}]*/gu, '')` — strip leading non-alphanumerics;
3. `replace(/[^\p{L}\p{N}]+$/gu, '')` — strip trailing non-alphanumerics.

The character-class tests are regex-engine Unicode property lookups; the
pipeline below is parameterised by those class oracles (`keep` for pass 1,
`alnum` for passes 2 and 3), and the idempotence proof holds for every
oracle, hence in particular for the engine's actual Unicode tables.  For
concrete evaluation the oracles are instantiated with the ASCII fragments
of the classes, which agree with the Unicode tables on ASCII input. -/

/-- Pass 2: strip the longest prefix of characters failing `alnum`. -/
def trimStart (alnum : Char → Bool) (l : List Char) : List Char :=
  l.dropWhile (fun c => !(alnum c))

/-- Pass 3: strip the longest suffix of characters failing `alnum`. -/
def trimEnd (alnum : Char → Bool) (l : List Char) : List Char :=
  (l.reverse.dropWhile (fun c => !(alnum c))).reverse

/-- The three-pass sanitization pipeline on character lists. -/
def sanitizeChars (keep alnum : Char → Bool) (l : List Char) : List Char :=
  trimEnd alnum (trimStart alnum (l.filter keep))

/-- ASCII fragment of the regex keep-class `[\p{L}\p{N}\p{Z}’.,-]`
(pass 1): letters, digits, the space separator, `’`, `.`, `,`, `-`.
Agrees with the full Unicode class on ASCII characters. -/
def homeKitKeepChar (c : Char) : Bool :=
  c.isAlpha || c.isDigit || c = ' ' || c = '’' || c = '.' || c = ',' || c = '-'

/-- ASCII fragment of the regex class `[\p{L}\p{N}]` used by the trimming
passes 2 and 3. -/
def homeKitAlnumChar (c : Char) : Bool :=
  c.isAlpha || c.isDigit

/-- The function `makeHomeKitName` from the source, on the string type. -/
def makeHomeKitName (s : String) : String :=
  ⟨sanitizeChars homeKitKeepChar homeKitAlnumChar s.data⟩

/-! ## Data model

Shapes of the JSON values the aggregator caches, following §6 of the API
surface and the property accesses in the source.  `currentPower` is
optional because the source guards each node with
`powerflow?.[key]?.currentPower !== undefined`; `unit` is optional
because the source guards with `typeof powerflow?.unit === 'string'`;
`connections` is optional because `updateDevice` guards with
`deviceData.powerflow.connections && ...`. -/

/-- A directed power-flow edge `{from, to}`.  (`from` is a Lean keyword,
so the fields are `flowFrom`/`flowTo`.) -/
structure Flow where
  flowFrom : String
  flowTo : String
deriving DecidableEq, Repr

/-- A named flow node (`GRID`/`PV`/`LOAD`) of `siteCurrentPowerFlow`. -/
structure FlowNode where
  currentPower : Option ℚ
  status : String
deriving DecidableEq, Repr

/-- The `siteCurrentPowerFlow` reading. -/
structure PowerFlow where
  unit : Option String
  GRID : FlowNode
  PV : FlowNode
  LOAD : FlowNode
  connections : Option (List Flow)
deriving DecidableEq, Repr

/-- One inverter record from `Inventory.inverters`. -/
structure Inverter where
  SN : String
  name : String
  cpuVersion : String
  model : String
  manufacturer : String
deriving DecidableEq, Repr

/-- The `Inventory` object. -/
structure Inventory where
  inverters : List Inverter
deriving DecidableEq, Repr

/-- The `site.location` object; `city` is optional, guarded in the source by
`typeof data?.site?.location?.city === 'string'`. -/
structure SiteLocation where
  city : Option String
deriving DecidableEq, Repr

/-- One site from `sites.site`. -/
structure Site where
  id : ℕ
  peakPower : ℚ
  installationDate : String
  location : SiteLocation
deriving DecidableEq, Repr

/-- One committed entry of the raw snapshot cache `#rawData[site.id]`. -/
structure RawEntry where
  connection : String
  site : Site
  inventory : Inventory
  powerflow : PowerFlow
deriving DecidableEq, Repr

/-- The canonical per-device record produced by `#processData`. -/
structure Device where
  excluded : Bool
  serialNumber : String
  softwareVersion : String
  model : String
  manufacturer : String
  siteid : ℕ
  installationDate : String
  description : String
  peakPower : ℚ
  powerflow : PowerFlow
  online : Bool
  eveHistory : Bool
deriving DecidableEq, Repr

/-! ## Normalizer (`#processData`, 2025 revision) -/

/-- The unit multiplier computed at the top of the per-site loop of
`#processData`: default `1000`; when `unit` is a string, uppercase it and
map `MW` to `1000000` and `W` to `1`, leaving every other value
(including `KW`) at the default. -/
def unitMultiplier (unit : Option String) : ℚ :=
  match unit with
  | none => 1000
  | some u =>
    let uu := toUpperCase u
    if uu = "MW" then 1000000
    else if uu = "W" then 1
    else 1000

/-- The in-place multiplication `powerflow[key].currentPower *= m`,
applied only when the node has a `currentPower` property. -/
def scaleNode (m : ℚ) (n : FlowNode) : FlowNode :=
  match n.currentPower with
  | some p => { n with currentPower := some (p * m) }
  | none => n

/-- The loop over `['GRID', 'PV', 'LOAD']` scaling each node of the
cloned power-flow reading. -/
def scalePowerFlow (m : ℚ) (pf : PowerFlow) : PowerFlow :=
  { pf with
    GRID := scaleNode m pf.GRID
    PV := scaleNode m pf.PV
    LOAD := scaleNode m pf.LOAD }

/-- The description computation of `#processData` (2025 revision):
`location` is the site city when it is a string, else the empty string;
`description` is the inverter name, falling back to `location` when the
name is empty (the 2025 revision does not clear `location` on this
fallback, unlike the 2024 revision); the result is
`makeHomeKitName(location === '' ? description : description + ' - ' +
location)`. -/
def deviceDescription (inverterName : String) (city : Option String) : String :=
  let location := match city with
    | some c => c
    | none => ""
  let description := inverterName
  let description := if description = "" then location else description
  makeHomeKitName (if location = "" then description else description ++ " - " ++ location)

/-- The per-site body of `#processData`: clone the power-flow reading
(`structuredClone`), compute the unit multiplier, scale the clone's
nodes, and derive one keyed device record per inverter of the site's
inventory.  `cfgEveHistory` models `config.options.eveHistory === true`;
`cfgDeviceEve serial` models `config?.devices?.[serial]?.eveHistory ===
true`. -/
def processEntryDevices (cfgEveHistory : Bool) (cfgDeviceEve : String → Bool)
    (data : RawEntry) : List (String × Device) :=
  let powerflow := scalePowerFlow (unitMultiplier data.powerflow.unit) data.powerflow
  data.inventory.inverters.map (fun inverter =>
    let serial := toUpperCase inverter.SN
    (serial,
      { excluded := false
        serialNumber := serial
        softwareVersion := replaceDashDot inverter.cpuVersion
        model := inverter.model
        manufacturer := inverter.manufacturer
        siteid := data.site.id
        installationDate := data.site.installationDate
        description := deviceDescription inverter.name data.site.location.city
        peakPower := data.site.peakPower * unitMultiplier data.powerflow.unit
        powerflow := powerflow
        online := true
        eveHistory := cfgEveHistory || cfgDeviceEve serial }))

/-- The method `#processData` over the raw snapshot cache: iterate
`Object.values(this.#rawData)`, accumulating device records keyed by
serial into the `devices` object.  The second component is the raw
snapshot cache as `#processData` leaves it: every write in the source
body targets either the `structuredClone` of the power-flow reading or
the local `devices` object, so the cache is returned untouched. -/
def processData (cfgEveHistory : Bool) (cfgDeviceEve : String → Bool)
    (rawData : List (ℕ × RawEntry)) : List (String × Device) × List (ℕ × RawEntry) :=
  ((rawData.map Prod.snd).foldl
    (fun devices data =>
      (processEntryDevices cfgEveHistory cfgDeviceEve data).foldl
        (fun ds kd => upsertA kd.1 kd.2 ds) devices)
    [],
   rawData)

/-! ## Reconnect backoff loop (`didFinishLaunching` handler, 2025 revision)

`reconnectDelay` starts at `15000`.  Each pass of `reconnectLoop` over an
unauthorised connection attempts authorisation and then updates
`reconnectDelay = authorised === true ? 15000 : Math.min(reconnectDelay *
2, 60000)`; an already-authorised pass sets it back to `15000`.  The
first attempt runs immediately (`reconnectLoop()` is invoked directly),
so the delay *between* attempt `n` and attempt `n + 1` is the value of
`reconnectDelay` after the `n`-th attempt completes. -/

/-- The `reconnectDelay` update after one pass over an unauthorised
connection whose authorisation attempt resulted in
`authorisedAfter`. -/
def reconnectDelayUpdate (authorisedAfter : Bool) (delay : ℕ) : ℕ :=
  if authorisedAfter then 15000 else min (delay * 2) 60000

/-- The value of `reconnectDelay` after `n` consecutive failed
authorisation attempts, starting from the initial `15000`.  For `n ≥ 1`
this is the delay scheduled between failed attempt `n` and attempt
`n + 1`. -/
def reconnectDelayAfter : ℕ → ℕ
  | 0 => 15000
  | n + 1 => reconnectDelayUpdate false (reconnectDelayAfter n)

/-- Modelled from the spec: the backoff sequence the specification
claims, `15000, 30000, 60000, 60000, …` — the delay between failed
attempt `n` and attempt `n + 1` would be `min (15000 * 2 ^ (n - 1))
60000` (doubling from an initial 15000, capped at 60000).  Stated from
the spec's words for comparison with `reconnectDelayAfter`, which is
translated from the source. -/
def specClaimedBackoff (n : ℕ) : ℕ :=
  min (15000 * 2 ^ (n - 1)) 60000

/-! ## HTTP retry wrapper (`fetchWrapper`, 2025 revision)

`options.retry` is normalised to at least 1; `options._retryCount`
starts at 0.  On a transport failure (`fetch` throws) or a non-success
response (`response.ok === false`) the wrapper, while `options.retry >
1`, decrements `retry`, increments `_retryCount`, sleeps `500 * 2 **
(_retryCount - 1)` milliseconds and re-invokes itself; otherwise it
throws.  Both failure paths share identical retry arithmetic, so one
outcome constructor covers them. -/

/-- Outcome of a single `fetch` attempt: success, or a failure (either a
thrown transport error or `response.ok === false`). -/
inductive FetchOutcome
  | success
  | failure
deriving DecidableEq, Repr

/-- Whether the exhausted call chain ultimately returns a response or
throws. -/
inductive FetchResult
  | ok
  | error
deriving DecidableEq, Repr

/-- The retry recursion of `fetchWrapper`, driven by the outcome of each
attempt (`outcomes k` is the outcome of the attempt performed with
`_retryCount = k`).  Returns the overall result, the total number of
attempts performed, and the list of backoff delays slept, in order. -/
def fetchWrapperRun (outcomes : ℕ → FetchOutcome) :
    (retry : ℕ) → (retryCount : ℕ) → FetchResult × ℕ × List ℕ
  | retry, rc =>
    match outcomes rc with
    | .success => (.ok, 1, [])
    | .failure =>
      -- `options.retry > 1`: retry, then one fewer retry with `_retryCount`
      -- incremented and a sleep of `500 * 2 ** (_retryCount - 1)` first
      match retry with
      | r + 2 =>
        let rest := fetchWrapperRun outcomes (r + 1) (rc + 1)
        (rest.1, rest.2.1 + 1, 500 * 2 ^ ((rc + 1) - 1) :: rest.2.2)
      | _ => (.error, 1, [])

/-- The normalisation `if (isNaN(options.retry) === true || options.retry
< 1) options.retry = 1` applied before the first attempt. -/
def normaliseRetry (retry : ℕ) : ℕ :=
  if retry < 1 then 1 else retry

/-! ## Site aggregation commit rule (`#subscribeREST`, 2025 revision)

For each site, two endpoint fetches (`/inventory.json` and
`/currentPowerFlow.json`) run concurrently; each stores its decoded
body into `tempObject[url]` on success and logs on failure.  The
snapshot commits via `this.#rawData[site.id] = {...}` exactly when
`Object.keys(tempObject).length === FETCHURLS.length` (that is, both
keys are present). -/

/-- The count `Object.keys(tempObject).length`: one key per endpoint fetch that
succeeded. -/
def tempObjectKeyCount (inv : Option Inventory) (pf : Option PowerFlow) : ℕ :=
  (if inv.isSome then 1 else 0) + (if pf.isSome then 1 else 0)

/-- The constant `FETCHURLS.length` — the two endpoints fetched per site. -/
def fetchUrlsLength : ℕ := 2

/-- The per-site step of the aggregation cycle: commit the joined
snapshot into the cache iff every endpoint stored its result, otherwise
leave the cache exactly as it was. -/
def subscribeSite (uuid : String) (cache : List (ℕ × RawEntry)) (site : Site)
    (inv : Option Inventory) (pf : Option PowerFlow) : List (ℕ × RawEntry) :=
  if h : tempObjectKeyCount inv pf = fetchUrlsLength then
    upsertA site.id
      { connection := uuid
        site := site
        inventory := inv.get (by
          cases inv <;> cases pf <;> simp [tempObjectKeyCount, fetchUrlsLength] at h ⊢)
        powerflow := pf.get (by
          cases inv <;> cases pf <;> simp [tempObjectKeyCount, fetchUrlsLength] at h ⊢) }
      cache
  else cache

/-- The fetch outcomes observed for one site in one cycle. -/
structure SiteFetch where
  site : Site
  inv : Option Inventory
  pf : Option PowerFlow
deriving DecidableEq, Repr

/-- One full aggregation cycle over the listed sites of a connection
(the `for (const site of data.sites.site)` loop). -/
def subscribeCycle (uuid : String) (cache : List (ℕ × RawEntry))
    (sites : List SiteFetch) : List (ℕ × RawEntry) :=
  sites.foldl (fun c x => subscribeSite uuid c x.site x.inv x.pf) cache

/-! ## Device registry (`#processPostSubscribe`, 2025 revision) -/

/-- Modelled from the spec: `HomeKitDevice.generateUUID` (defined in
`HomeKitDevice.js`, which is not part of the sources here) produces a
stable identity token per plugin/serial pair; the identity of an
instantiated `SolarInverter` (`tempDevice.uuid`) is the same token.
Stability and per-serial determinism are all the registry relies on. -/
def generateUUID (serial : String) : String :=
  "uuid:" ++ serial

/-- One tracked-device map entry (`timers` is always `undefined` when
written here and is omitted). -/
structure TrackedEntry where
  uuid : String
  exclude : Bool
deriving DecidableEq, Repr

/-- Externally visible effects of one pass of `#processPostSubscribe`
over one device record. -/
inductive RegistryAction
  | warnExcluded (description : String)
  | unregisterAccessory (uuid : String)
  | instantiate (serialNumber : String)
  | emitUpdate (uuid serialNumber : String)
deriving DecidableEq, Repr

/-- Block 1 of `#processPostSubscribe`: a serial number not yet tracked
whose record is excluded is warned about, tracked as excluded, and its
cached platform accessory (if any) unregistered. -/
def trackExcludedNew (cachedAccessories : List String)
    (tracked : List (String × TrackedEntry)) (d : Device) :
    List RegistryAction × List (String × TrackedEntry) :=
  if (lookupA d.serialNumber tracked).isNone ∧ d.excluded = true then
    ([RegistryAction.warnExcluded d.description] ++
      (if generateUUID d.serialNumber ∈ cachedAccessories then
        [RegistryAction.unregisterAccessory (generateUUID d.serialNumber)] else []),
     upsertA d.serialNumber ⟨generateUUID d.serialNumber, true⟩ tracked)
  else ([], tracked)

/-- Block 2 of `#processPostSubscribe`: a serial number not yet tracked
(as observed *after* block 1 ran) whose record is not excluded is
instantiated as a `SolarInverter` and tracked as active. -/
def instantiateNew (tracked : List (String × TrackedEntry)) (d : Device) :
    List RegistryAction × List (String × TrackedEntry) :=
  if (lookupA d.serialNumber tracked).isNone ∧ d.excluded = false then
    ([RegistryAction.instantiate d.serialNumber],
     upsertA d.serialNumber ⟨generateUUID d.serialNumber, false⟩ tracked)
  else ([], tracked)

/-- Block 3 of `#processPostSubscribe`: a non-excluded record whose
serial is tracked (as observed after blocks 1 and 2) gets its update
emitted to the tracked uuid, guarded by the uuid being truthy. -/
def emitUpdateActs (tracked : List (String × TrackedEntry)) (d : Device) :
    List RegistryAction :=
  if d.excluded = false then
    match lookupA d.serialNumber tracked with
    | some entry =>
      if entry.uuid ≠ "" then [RegistryAction.emitUpdate entry.uuid d.serialNumber] else []
    | none => []
  else []

/-- Processing of a single device record by `#processPostSubscribe`:
the three sequential guarded blocks over the tracked-device map, the
later guards observing the map as updated by the earlier blocks. -/
def processDevice (cachedAccessories : List String)
    (tracked : List (String × TrackedEntry)) (d : Device) :
    List RegistryAction × List (String × TrackedEntry) :=
  let step1 := trackExcludedNew cachedAccessories tracked d
  let step2 := instantiateNew step1.2 d
  (step1.1 ++ step2.1 ++ emitUpdateActs step2.2 d, step2.2)

/-- The `forEach` of `#processPostSubscribe` over the device records of
one normalization result, threading the tracked-device map and
collecting the emitted actions in order. -/
def processCycle (cachedAccessories : List String)
    (tracked : List (String × TrackedEntry)) :
    List Device → List RegistryAction × List (String × TrackedEntry)
  | [] => ([], tracked)
  | d :: ds =>
    let r := processDevice cachedAccessories tracked d
    let rest := processCycle cachedAccessories r.2 ds
    (r.1 ++ rest.1, rest.2)

/-- A sequence of polling cycles driving `#processPostSubscribe`. -/
def processCycles (cachedAccessories : List String)
    (tracked : List (String × TrackedEntry)) :
    List (List Device) → List RegistryAction × List (String × TrackedEntry)
  | [] => ([], tracked)
  | ds :: dss =>
    let r := processCycle cachedAccessories tracked ds
    let rest := processCycles cachedAccessories r.2 dss
    (r.1 ++ rest.1, rest.2)

/-! ## Battery service updates (`updateDevice`, 2025 revision) -/

/-- The `Characteristic.ChargingState` values written by `updateDevice`. -/
inductive ChargingStateValue
  | notCharging
  | charging
deriving DecidableEq, Repr

/-- The `Characteristic.StatusLowBattery` values written by
`updateDevice`. -/
inductive LowBatteryValue
  | batteryLevelNormal
  | batteryLevelLow
deriving DecidableEq, Repr

/-- One `updateCharacteristic` call on the battery service. -/
inductive BatteryServiceWrite
  | batteryLevel (v : ℚ)
  | chargingState (v : ChargingStateValue)
  | statusLowBattery (v : LowBatteryValue)
deriving DecidableEq, Repr

/-- The function `scaleValue` (2025 revision): early-return `targetMin` when the
source range is degenerate, otherwise clamp `value` into
`[sourceMin, sourceMax]` and interpolate linearly into
`[targetMin, targetMax]`. -/
def scaleValue (value sourceMin sourceMax targetMin targetMax : ℚ) : ℚ :=
  if sourceMax = sourceMin then targetMin
  else
    let v := max sourceMin (min sourceMax value)
    ((v - sourceMin) * (targetMax - targetMin)) / (sourceMax - sourceMin) + targetMin

/-- The battery-service writes produced for one flow edge inside the
`connections.forEach` loop: two independent case-insensitive tests on
`{from, to}`. -/
def flowWrites (f : Flow) : List BatteryServiceWrite :=
  (if toUpperCase f.flowFrom = "LOAD" ∧ toUpperCase f.flowTo = "GRID" then
    [BatteryServiceWrite.chargingState .charging,
     BatteryServiceWrite.statusLowBattery .batteryLevelNormal]
   else []) ++
  (if toUpperCase f.flowFrom = "GRID" ∧ toUpperCase f.flowTo = "LOAD" then
    [BatteryServiceWrite.chargingState .notCharging,
     BatteryServiceWrite.statusLowBattery .batteryLevelLow]
   else [])

/-- The ordered battery-service writes of one `updateDevice` call:
`BatteryLevel` from the scaled PV power, the default
`ChargingState.NOT_CHARGING`, then the per-edge writes (skipped wholesale
when `connections` is absent). -/
def batteryServiceWrites (pvCurrentPower peakPower : ℚ)
    (connections : Option (List Flow)) : List BatteryServiceWrite :=
  [BatteryServiceWrite.batteryLevel (scaleValue pvCurrentPower 0 peakPower 0 100),
   BatteryServiceWrite.chargingState .notCharging] ++
  (match connections with
   | none => []
   | some flows => (flows.map flowWrites).flatten)

/-- Whether the edge list contains a `{from, to}` edge matching the two
given uppercase names, with the source's case-insensitive comparison. -/
def hasFlowEdge (connections : Option (List Flow)) (f t : String) : Bool :=
  match connections with
  | none => false
  | some flows =>
    flows.any (fun e => toUpperCase e.flowFrom == f && toUpperCase e.flowTo == t)

/-- The value the `ChargingState` characteristic holds after a write
list is applied in order (last write wins). -/
def lastChargingState (ws : List BatteryServiceWrite) : Option ChargingStateValue :=
  ws.foldl (fun acc w =>
    match w with
    | .chargingState v => some v
    | _ => acc) none

/-! ## Sample data used by concrete witnesses -/

/-- A sample raw power-flow reading (unit `kW`, PV producing). -/
def samplePowerFlow : PowerFlow :=
  { unit := some "kW"
    GRID := { currentPower := some 1, status := "Active" }
    PV := { currentPower := some (7/2), status := "Active" }
    LOAD := { currentPower := none, status := "Idle" }
    connections := some [{ flowFrom := "LOAD", flowTo := "GRID" }] }

/-- A sample inventory inverter record. -/
def sampleInverter : Inverter :=
  { SN := "7e12abcd-34"
    name := "Inv1"
    cpuVersion := "4-15-123456"
    model := "SE5000"
    manufacturer := "SolarEdge" }

/-- A sample site. -/
def sampleSite : Site :=
  { id := 1
    peakPower := 5
    installationDate := "2020-01-01"
    location := { city := some "Sydney" } }

/-- A sample committed raw snapshot cache entry. -/
def sampleEntry : RawEntry :=
  { connection := "conn-1"
    site := sampleSite
    inventory := { inverters := [sampleInverter] }
    powerflow := samplePowerFlow }

/-- The keyed device record `#processData` derives from `sampleEntry`
(each field spelled as the normalizer computes it, so that
`processEntryDevices true (fun s => false) sampleEntry =
[sampleDevicePair]` holds by `rfl`). -/
def sampleDevicePair : String × Device :=
  (toUpperCase sampleInverter.SN,
    { excluded := false
      serialNumber := toUpperCase sampleInverter.SN
      softwareVersion := replaceDashDot sampleInverter.cpuVersion
      model := sampleInverter.model
      manufacturer := sampleInverter.manufacturer
      siteid := sampleEntry.site.id
      installationDate := sampleEntry.site.installationDate
      description := deviceDescription sampleInverter.name sampleEntry.site.location.city
      peakPower := sampleEntry.site.peakPower * unitMultiplier sampleEntry.powerflow.unit
      powerflow := scalePowerFlow (unitMultiplier sampleEntry.powerflow.unit) sampleEntry.powerflow
      online := true
      eveHistory := true })

/-- The device of `sampleDevicePair` marked excluded, as a first observation
for the registry. -/
def sampleExcludedDevice : Device :=
  { sampleDevicePair.2 with excluded := true }

/-- One site's fetch outcomes in one aggregation cycle, both endpoints
succeeding. -/
def sampleSiteFetch : SiteFetch :=
  { site := sampleSite
    inv := some { inverters := [sampleInverter] }
    pf := some samplePowerFlow }

/-! ## Helper lemmas -/

theorem lookupA_upsertA_self {α β : Type} [DecidableEq α] (k : α) (v : β)
    (l : List (α × β)) : lookupA k (upsertA k v l) = some v := by
  induction l with
  | nil => simp [upsertA, lookupA]
  | cons h t ih =>
    obtain ⟨k', v'⟩ := h
    by_cases hk : k' = k
    · simp [upsertA, lookupA, hk]
    · simp [upsertA, lookupA, hk, ih]

theorem lookupA_upsertA_other {α β : Type} [DecidableEq α] (k k' : α) (v : β)
    (l : List (α × β)) (hne : k' ≠ k) :
    lookupA k' (upsertA k v l) = lookupA k' l := by
  have hne' : k ≠ k' := Ne.symm hne
  induction l with
  | nil => simp [upsertA, lookupA, hne']
  | cons h t ih =>
    obtain ⟨ka, va⟩ := h
    by_cases hk : ka = k
    · subst hk
      simp [upsertA, lookupA, hne']
    · simp only [upsertA, if_neg hk, lookupA]
      by_cases hk' : ka = k'
      · simp [hk']
      · simp [hk', ih]

theorem mem_dropWhile {p : Char → Bool} {l : List Char} {a : Char}
    (h : a ∈ l.dropWhile p) : a ∈ l := by
  induction l with
  | nil => simp [List.dropWhile] at h
  | cons b t ih =>
    by_cases hb : p b
    · simp only [List.dropWhile, hb] at h
      exact List.mem_cons_of_mem _ (ih h)
    · simp only [List.dropWhile, hb] at h
      simpa using h

theorem dropWhile_head_false {p : Char → Bool} {l t : List Char} {a : Char}
    (h : l.dropWhile p = a :: t) : p a = false := by
  induction l with
  | nil => simp [List.dropWhile] at h
  | cons b bs ih =>
    by_cases hb : p b
    · simp only [List.dropWhile, hb] at h
      exact ih h
    · simp only [List.dropWhile, hb] at h
      injection h with h1 h2
      subst h1
      simpa using hb

theorem dropWhile_cons_false {p : Char → Bool} {a : Char} (t : List Char)
    (h : p a = false) : (a :: t).dropWhile p = a :: t := by
  simp [List.dropWhile, h]

theorem dropWhile_suffix (p : Char → Bool) (l : List Char) :
    ∃ s, l = s ++ l.dropWhile p := by
  induction l with
  | nil => exact ⟨[], rfl⟩
  | cons b t ih =>
    by_cases hb : p b
    · obtain ⟨s, hs⟩ := ih
      exact ⟨b :: s, by simp [List.dropWhile, hb, ← hs]⟩
    · exact ⟨[], by simp [List.dropWhile, hb]⟩

theorem sanitizeChars_mem_keep {keep alnum : Char → Bool} {l : List Char}
    {a : Char} (h : a ∈ sanitizeChars keep alnum l) : keep a = true := by
  unfold sanitizeChars trimEnd trimStart at h
  rw [List.mem_reverse] at h
  have h1 : a ∈ (l.filter keep).dropWhile (fun c => !(alnum c)) := by
    have := mem_dropWhile h
    rwa [List.mem_reverse] at this
  have h2 : a ∈ l.filter keep := mem_dropWhile h1
  exact (List.mem_filter.mp h2).2

theorem sanitizeChars_head_alnum {keep alnum : Char → Bool} {l t : List Char}
    {a : Char} (h : sanitizeChars keep alnum l = a :: t) : alnum a = true := by
  unfold sanitizeChars trimEnd trimStart at h
  set U := (l.filter keep).dropWhile (fun c => !(alnum c)) with hU
  -- `a :: t` is the reverse of a suffix of `U.reverse`, hence a prefix of `U`
  obtain ⟨s, hs⟩ := dropWhile_suffix (fun c => !(alnum c)) U.reverse
  have hrev : U.reverse.dropWhile (fun c => !(alnum c)) = (a :: t).reverse := by
    rw [← h, List.reverse_reverse]
  rw [hrev] at hs
  have hUeq : U = (a :: t) ++ s.reverse := by
    have := congrArg List.reverse hs
    simpa using this
  have : U = a :: (t ++ s.reverse) := by simpa using hUeq
  have hhead := dropWhile_head_false (hU ▸ this)
  simpa using hhead

theorem sanitizeChars_last_alnum {keep alnum : Char → Bool} {l t : List Char}
    {a : Char} (h : (sanitizeChars keep alnum l).reverse = a :: t) :
    alnum a = true := by
  unfold sanitizeChars trimEnd at h
  rw [List.reverse_reverse] at h
  have := dropWhile_head_false h
  simpa using this

/-- Idempotence of the sanitization pipeline, for every choice of the
character-class oracles. -/
theorem sanitizeChars_idem (keep alnum : Char → Bool) (l : List Char) :
    sanitizeChars keep alnum (sanitizeChars keep alnum l) =
      sanitizeChars keep alnum l := by
  have hfilter : (sanitizeChars keep alnum l).filter keep = sanitizeChars keep alnum l :=
    List.filter_eq_self.mpr (fun a ha => sanitizeChars_mem_keep ha)
  have hstart : trimStart alnum (sanitizeChars keep alnum l) = sanitizeChars keep alnum l := by
    cases hTc : sanitizeChars keep alnum l with
    | nil => simp [trimStart]
    | cons a t =>
      have ha := sanitizeChars_head_alnum hTc
      unfold trimStart
      exact dropWhile_cons_false t (by simp [ha])
  have hend : trimEnd alnum (sanitizeChars keep alnum l) = sanitizeChars keep alnum l := by
    cases hTr : (sanitizeChars keep alnum l).reverse with
    | nil =>
      have h0 : sanitizeChars keep alnum l = [] := by
        simpa using congrArg List.reverse hTr
      rw [h0]
      simp [trimEnd]
    | cons a t =>
      have ha := sanitizeChars_last_alnum hTr
      unfold trimEnd
      rw [hTr, dropWhile_cons_false t (by simp [ha]), ← hTr, List.reverse_reverse]
  show trimEnd alnum (trimStart alnum ((sanitizeChars keep alnum l).filter keep)) =
    sanitizeChars keep alnum l
  rw [hfilter, hstart, hend]

/-! ## Aggregation commit helpers -/

theorem subscribeSite_commit (uuid : String) (cache : List (ℕ × RawEntry))
    (site : Site) (i : Inventory) (p : PowerFlow) :
    subscribeSite uuid cache site (some i) (some p) =
      upsertA site.id
        { connection := uuid, site := site, inventory := i, powerflow := p } cache := by
  rfl

theorem subscribeSite_skip (uuid : String) (cache : List (ℕ × RawEntry))
    (site : Site) (inv : Option Inventory) (pf : Option PowerFlow)
    (h : inv.isNone ∨ pf.isNone) :
    subscribeSite uuid cache site inv pf = cache := by
  cases inv <;> cases pf <;>
    simp_all [subscribeSite, tempObjectKeyCount, fetchUrlsLength]

theorem lookupA_subscribeSite_other (uuid : String) (cache : List (ℕ × RawEntry))
    (site : Site) (inv : Option Inventory) (pf : Option PowerFlow) (k : ℕ)
    (hk : k ≠ site.id) :
    lookupA k (subscribeSite uuid cache site inv pf) = lookupA k cache := by
  cases inv with
  | none => rw [subscribeSite_skip uuid cache site none pf (Or.inl rfl)]
  | some i =>
    cases pf with
    | none => rw [subscribeSite_skip uuid cache site (some i) none (Or.inr rfl)]
    | some p =>
      rw [subscribeSite_commit]
      exact lookupA_upsertA_other _ _ _ _ hk

theorem subscribeCycle_cons (uuid : String) (cache : List (ℕ × RawEntry))
    (x : SiteFetch) (t : List SiteFetch) :
    subscribeCycle uuid cache (x :: t) =
      subscribeCycle uuid (subscribeSite uuid cache x.site x.inv x.pf) t := by
  rfl

theorem lookupA_subscribeCycle_not_mem (uuid : String) (xs : List SiteFetch) :
    ∀ (cache : List (ℕ × RawEntry)) (k : ℕ), k ∉ xs.map (fun x => x.site.id) →
    lookupA k (subscribeCycle uuid cache xs) = lookupA k cache := by
  induction xs with
  | nil => intro cache k _; rfl
  | cons x t ih =>
    intro cache k hk
    simp only [List.map_cons, List.mem_cons] at hk
    push_neg at hk
    rw [subscribeCycle_cons, ih _ k hk.2,
      lookupA_subscribeSite_other _ _ _ _ _ _ hk.1]

/-! ## Retry wrapper helpers -/

/-- Cons/shift identity for the backoff-delay list. -/
theorem range_map_pow_shift (rc n : ℕ) :
    (List.range (n + 1)).map (fun j => 500 * 2 ^ (rc + j)) =
      500 * 2 ^ rc :: (List.range n).map (fun j => 500 * 2 ^ (rc + 1 + j)) := by
  rw [List.range_succ_eq_map, List.map_cons, List.map_map]
  refine congrArg₂ List.cons (by simp) ?_
  exact List.map_congr_left fun j _ => by
    simp only [Function.comp_apply]
    rw [show rc + (j + 1) = rc + 1 + j by omega]

/-- The retry recursion performs at most `max retry 1` attempts, sleeps
once per re-attempt, and the `j`-th sleep (0-based) from `_retryCount =
rc` lasts `500 * 2 ^ (rc + j)` milliseconds. -/
theorem fetchWrapperRun_delays (o : ℕ → FetchOutcome) :
    ∀ (retry rc : ℕ),
      (fetchWrapperRun o retry rc).2.2 =
        (List.range (fetchWrapperRun o retry rc).2.2.length).map
          (fun j => 500 * 2 ^ (rc + j)) ∧
      (fetchWrapperRun o retry rc).2.1 = (fetchWrapperRun o retry rc).2.2.length + 1 ∧
      (fetchWrapperRun o retry rc).2.1 ≤ max retry 1 := by
  intro retry
  induction retry using Nat.strong_induction_on with
  | _ retry ih =>
    intro rc
    match retry with
    | 0 =>
      rw [fetchWrapperRun.eq_2 o 0 rc (by intro r hr; omega)]
      cases o rc <;> simp
    | 1 =>
      rw [fetchWrapperRun.eq_2 o 1 rc (by intro r hr; omega)]
      cases o rc <;> simp
    | r + 2 =>
      rw [fetchWrapperRun.eq_1]
      cases ho : o rc with
      | success => simp
      | failure =>
        have hrec := ih (r + 1) (by omega) (rc + 1)
        simp only
        refine ⟨?_, ?_, ?_⟩
        · rw [hrec.1]
          simp only [List.length_cons, List.length_map, List.length_range]
          rw [range_map_pow_shift]
          simp
        · rw [List.length_cons, hrec.2.1]
        · have := hrec.2.2
          simp only [le_max_iff] at this ⊢
          omega

/-! ## Registry invariant helpers -/

/-- Block 1 never emits an `instantiate`. -/
theorem instantiate_not_mem_trackExcludedNew (cached : List String)
    (tracked : List (String × TrackedEntry)) (d : Device) (s : String) :
    RegistryAction.instantiate s ∉ (trackExcludedNew cached tracked d).1 := by
  unfold trackExcludedNew
  split_ifs <;> simp

/-- Block 3 never emits an `instantiate`. -/
theorem instantiate_not_mem_emitUpdateActs
    (tracked : List (String × TrackedEntry)) (d : Device) (s : String) :
    RegistryAction.instantiate s ∉ emitUpdateActs tracked d := by
  unfold emitUpdateActs
  by_cases he : d.excluded = false
  · simp only [if_pos he]
    cases hl : lookupA d.serialNumber tracked with
    | none => simp
    | some entry => by_cases hu : entry.uuid ≠ "" <;> simp [hu]
  · simp [he]

/-- An `instantiate` emitted by block 2 names the record's own serial,
and requires that serial to be untracked when block 2 runs. -/
theorem instantiate_mem_instantiateNew
    (tracked : List (String × TrackedEntry)) (d : Device) (s : String)
    (hmem : RegistryAction.instantiate s ∈ (instantiateNew tracked d).1) :
    (lookupA d.serialNumber tracked).isNone = true ∧ d.excluded = false ∧
      s = d.serialNumber := by
  unfold instantiateNew at hmem
  split_ifs at hmem with hc
  · simp only [List.mem_singleton, RegistryAction.instantiate.injEq] at hmem
    exact ⟨hc.1, hc.2, hmem⟩
  · simp at hmem

/-- Block 1 keeps every tracked serial tracked. -/
theorem lookupA_trackExcludedNew_preserves (cached : List String)
    (tracked : List (String × TrackedEntry)) (d : Device) (s : String)
    (h : (lookupA s tracked).isSome = true) :
    (lookupA s (trackExcludedNew cached tracked d).2).isSome = true := by
  have hgen : ∀ e : TrackedEntry,
      (lookupA s (upsertA d.serialNumber e tracked)).isSome = true := by
    intro e
    by_cases hds : d.serialNumber = s
    · simp [hds, lookupA_upsertA_self]
    · rw [lookupA_upsertA_other _ _ _ _ (fun hc => hds hc.symm)]
      exact h
  unfold trackExcludedNew
  split_ifs <;> first | exact hgen _ | exact h

/-- Block 2 keeps every tracked serial tracked. -/
theorem lookupA_instantiateNew_preserves
    (tracked : List (String × TrackedEntry)) (d : Device) (s : String)
    (h : (lookupA s tracked).isSome = true) :
    (lookupA s (instantiateNew tracked d).2).isSome = true := by
  have hgen : ∀ e : TrackedEntry,
      (lookupA s (upsertA d.serialNumber e tracked)).isSome = true := by
    intro e
    by_cases hds : d.serialNumber = s
    · simp [hds, lookupA_upsertA_self]
    · rw [lookupA_upsertA_other _ _ _ _ (fun hc => hds hc.symm)]
      exact h
  unfold instantiateNew
  split_ifs <;> first | exact hgen _ | exact h

/-- Once a serial number is present in the tracked-device map, one pass
of `#processPostSubscribe` over any device record never emits an
`instantiate` for it and keeps it present. -/
theorem processDevice_preserves (cached : List String)
    (tracked : List (String × TrackedEntry)) (d : Device) (s : String)
    (h : (lookupA s tracked).isSome = true) :
    RegistryAction.instantiate s ∉ (processDevice cached tracked d).1 ∧
    (lookupA s (processDevice cached tracked d).2).isSome = true := by
  have h1 := lookupA_trackExcludedNew_preserves cached tracked d s h
  have h2 := lookupA_instantiateNew_preserves (trackExcludedNew cached tracked d).2 d s h1
  refine ⟨?_, h2⟩
  intro hmem
  simp only [processDevice, List.mem_append] at hmem
  rcases hmem with (hmem | hmem) | hmem
  · exact instantiate_not_mem_trackExcludedNew cached tracked d s hmem
  · obtain ⟨hnone, -, rfl⟩ :=
      instantiate_mem_instantiateNew (trackExcludedNew cached tracked d).2 d s hmem
    rw [Option.isNone_iff_eq_none] at hnone
    rw [hnone] at h1
    simp at h1
  · exact instantiate_not_mem_emitUpdateActs (instantiateNew (trackExcludedNew cached tracked d).2 d).2 d s hmem

/-- The single-pass invariant extended over one full cycle. -/
theorem processCycle_preserves (cached : List String) (ds : List Device) :
    ∀ (tracked : List (String × TrackedEntry)) (s : String),
      (lookupA s tracked).isSome = true →
      RegistryAction.instantiate s ∉ (processCycle cached tracked ds).1 ∧
      (lookupA s (processCycle cached tracked ds).2).isSome = true := by
  induction ds with
  | nil =>
    intro tracked s h
    exact ⟨by simp [processCycle], h⟩
  | cons d t ih =>
    intro tracked s h
    have hd := processDevice_preserves cached tracked d s h
    have ht := ih (processDevice cached tracked d).2 s hd.2
    refine ⟨?_, ht.2⟩
    intro hmem
    rcases List.mem_append.mp hmem with hmem | hmem
    · exact hd.1 hmem
    · exact ht.1 hmem

/-- The invariant extended over any sequence of cycles. -/
theorem processCycles_preserves (cached : List String) (dss : List (List Device)) :
    ∀ (tracked : List (String × TrackedEntry)) (s : String),
      (lookupA s tracked).isSome = true →
      RegistryAction.instantiate s ∉ (processCycles cached tracked dss).1 ∧
      (lookupA s (processCycles cached tracked dss).2).isSome = true := by
  induction dss with
  | nil =>
    intro tracked s h
    exact ⟨by simp [processCycles], h⟩
  | cons ds t ih =>
    intro tracked s h
    have hd := processCycle_preserves cached ds tracked s h
    have ht := ih (processCycle cached tracked ds).2 s hd.2
    refine ⟨?_, ht.2⟩
    intro hmem
    rcases List.mem_append.mp hmem with hmem | hmem
    · exact hd.1 hmem
    · exact ht.1 hmem

/-! ## Claim theorems -/

/-- C9: the name-sanitization function `makeHomeKitName` is idempotent:
for every string `s`, `makeHomeKitName (makeHomeKitName s) =
makeHomeKitName s`.  (By `sanitizeChars_idem` this holds for every
choice of the character-class oracles, so it does not depend on the
ASCII instantiation.) -/
theorem C9_makeHomeKitName_idempotent (s : String) :
    makeHomeKitName (makeHomeKitName s) = makeHomeKitName s := by
  unfold makeHomeKitName
  exact congrArg (fun l => (⟨l⟩ : String))
    (sanitizeChars_idem homeKitKeepChar homeKitAlnumChar s.data)

/-- C4: the multiplier normalization applies is 1 for `W`, 1000 for
`kW`, 1000000 for `MW`, 1000 for a missing unit and 1000 for an
unrecognized unit; matching is case-insensitive (it depends only on the
uppercased unit string); and the multiplier is what `#processData`
applies to the site's `peakPower` and to the cloned power-flow nodes of
every derived device record. -/
theorem C4_unit_multiplier :
    unitMultiplier (some "W") = 1 ∧
    unitMultiplier (some "kW") = 1000 ∧
    unitMultiplier (some "MW") = 1000000 ∧
    unitMultiplier none = 1000 ∧
    unitMultiplier (some "xYz") = 1000 ∧
    unitMultiplier (some "w") = 1 ∧
    unitMultiplier (some "kw") = 1000 ∧
    unitMultiplier (some "mW") = 1000000 ∧
    (∀ u : String, toUpperCase u ≠ "MW" → toUpperCase u ≠ "W" →
      unitMultiplier (some u) = 1000) ∧
    (∀ (cfg : Bool) (gDev : String → Bool) (e : RawEntry) (kd : String × Device),
      kd ∈ processEntryDevices cfg gDev e →
      kd.2.peakPower = e.site.peakPower * unitMultiplier e.powerflow.unit ∧
      kd.2.powerflow = scalePowerFlow (unitMultiplier e.powerflow.unit) e.powerflow) := by
  refine ⟨by decide, by decide, by decide, by decide, by decide, by decide, by decide,
    by decide, ?_, ?_⟩
  · intro u h1 h2
    simp [unitMultiplier, h1, h2]
  · intro cfg gDev e kd hkd
    unfold processEntryDevices at hkd
    obtain ⟨inv, hinv, rfl⟩ := List.mem_map.mp hkd
    exact ⟨rfl, rfl⟩

/-- Witness for C4: the hypothesis-bearing clauses instantiated at the
mixed-case unrecognized unit `"Kw"` and at the sample cache entry. -/
theorem C4_unit_multiplier_witness :
    unitMultiplier (some "Kw") = 1000 ∧
    sampleDevicePair.2.peakPower =
      sampleEntry.site.peakPower * unitMultiplier sampleEntry.powerflow.unit := by
  constructor
  · exact C4_unit_multiplier.2.2.2.2.2.2.2.2.1 "Kw" (by decide) (by decide)
  · exact (C4_unit_multiplier.2.2.2.2.2.2.2.2.2 true (fun _ => false) sampleEntry
      sampleDevicePair
      (by
        have h : processEntryDevices true (fun _ => false) sampleEntry = [sampleDevicePair] := rfl
        rw [h]
        exact List.mem_singleton_self _)).1

/-- C6: evaluation of the 2025 revision's description computation.  When
the inverter name is empty and the site city is `"Sydney"`, the code
falls back to the city for `description` without clearing `location`,
and therefore produces `"Sydney - Sydney"` — the city appended to
itself — where the claim (and the 2024 revision, which clears
`location` on fallback) require `"Sydney"` alone.  The other two clauses
of the claim hold. -/
theorem C6_description_city_duplicated :
    deviceDescription "" (some "Sydney") = "Sydney - Sydney" ∧
    deviceDescription "" (some "Sydney") ≠ "Sydney" ∧
    deviceDescription "Inv1" (some "Sydney") = "Inv1 - Sydney" ∧
    deviceDescription "Inv1" none = "Inv1" ∧
    deviceDescription "" none = "" := by
  refine ⟨by decide, by decide, by decide, by decide, by decide⟩

/-- C10: `scaleValue` is total and range-bounded: under
`sourceMin ≤ sourceMax` and `targetMin ≤ targetMax` the clamped value
lies in `[sourceMin, sourceMax]`, the result lies in
`[targetMin, targetMax]`, and the degenerate source range returns
`targetMin` without dividing by zero. -/
theorem C10_scaleValue_bounds (value sourceMin sourceMax targetMin targetMax : ℚ)
    (hs : sourceMin ≤ sourceMax) (ht : targetMin ≤ targetMax) :
    sourceMin ≤ max sourceMin (min sourceMax value) ∧
    max sourceMin (min sourceMax value) ≤ sourceMax ∧
    targetMin ≤ scaleValue value sourceMin sourceMax targetMin targetMax ∧
    scaleValue value sourceMin sourceMax targetMin targetMax ≤ targetMax ∧
    (sourceMax = sourceMin →
      scaleValue value sourceMin sourceMax targetMin targetMax = targetMin) := by
  have hclamp1 : sourceMin ≤ max sourceMin (min sourceMax value) := le_max_left _ _
  have hclamp2 : max sourceMin (min sourceMax value) ≤ sourceMax :=
    max_le hs (min_le_left _ _)
  by_cases hdeg : sourceMax = sourceMin
  · refine ⟨hclamp1, hclamp2, ?_, ?_, fun _ => ?_⟩ <;> simp [scaleValue, hdeg, ht]
  · have hlt : sourceMin < sourceMax := lt_of_le_of_ne hs (Ne.symm hdeg)
    have hpos : (0 : ℚ) < sourceMax - sourceMin := sub_pos.mpr hlt
    set v := max sourceMin (min sourceMax value) with hv
    have hnum : (0 : ℚ) ≤ (v - sourceMin) * (targetMax - targetMin) :=
      mul_nonneg (by linarith) (by linarith)
    have hdivlo : (0 : ℚ) ≤ (v - sourceMin) * (targetMax - targetMin) / (sourceMax - sourceMin) :=
      div_nonneg hnum (le_of_lt hpos)
    have hdivhi : (v - sourceMin) * (targetMax - targetMin) / (sourceMax - sourceMin) ≤
        targetMax - targetMin := by
      rw [div_le_iff₀ hpos]
      nlinarith [hclamp1, hclamp2]
    have hval : scaleValue value sourceMin sourceMax targetMin targetMax =
        (v - sourceMin) * (targetMax - targetMin) / (sourceMax - sourceMin) + targetMin := by
      simp [scaleValue, hdeg, hv]
    refine ⟨hclamp1, hclamp2, ?_, ?_, fun h => absurd h hdeg⟩
    · rw [hval]; linarith
    · rw [hval]; linarith

/-- Witness for C10 at a concrete input (`value 5` scaled from
`[0, 10]` into `[0, 100]`). -/
theorem C10_scaleValue_bounds_witness :
    (0 : ℚ) ≤ max 0 (min 10 5) ∧
    max 0 (min 10 5) ≤ (10 : ℚ) ∧
    (0 : ℚ) ≤ scaleValue 5 0 10 0 100 ∧
    scaleValue 5 0 10 0 100 ≤ (100 : ℚ) ∧
    ((10 : ℚ) = 0 → scaleValue 5 0 10 0 100 = 0) :=
  C10_scaleValue_bounds 5 0 10 0 100 (by norm_num) (by norm_num)

/-- C2 counterexample: the claim says the delay between the first failed
authorization attempt and the second is 15000 ms (`specClaimedBackoff
1`), but in the source `reconnectDelay` starts at 15000 and is doubled
*before* the first retry is scheduled, so the observed first delay is
30000 ms. -/
theorem C2_backoff_counterexample :
    reconnectDelayAfter 1 = 30000 ∧ specClaimedBackoff 1 = 15000 ∧
    reconnectDelayAfter 1 ≠ specClaimedBackoff 1 := by
  refine ⟨by decide, by decide, by decide⟩

/-- C2 (amended): after the `n`-th consecutive authorization failure the
delay scheduled before the next attempt is `min (15000 * 2 ^ n) 60000`
— i.e. the delays form the sequence 30000, 60000, 60000, … — and the
delay is set to 15000 immediately after any authorization success. -/
theorem C2_backoff_amended :
    (∀ n : ℕ, reconnectDelayAfter n = min (15000 * 2 ^ n) 60000) ∧
    (∀ d : ℕ, reconnectDelayUpdate true d = 15000) := by
  constructor
  · intro n
    induction n with
    | zero => decide
    | succ n ih =>
      show reconnectDelayUpdate false (reconnectDelayAfter n) = _
      rw [ih, reconnectDelayUpdate, pow_succ]
      simp only [if_neg Bool.false_ne_true]
      generalize (2 : ℕ) ^ n = y
      omega
  · intro d
    rfl

/-- C1: `#processData` is pure with respect to the raw snapshot cache:
it returns the cache untouched (so re-running a later cycle on it gives
the same result, and the multiplier is never re-applied across cycles),
and each flow node's `currentPower` of every derived device record is
the raw value multiplied by the unit multiplier exactly once — per raw
reading, identically for every inverter of the site. -/
theorem C1_processData_pure (cfg : Bool) (gDev : String → Bool)
    (rawData : List (ℕ × RawEntry)) :
    (processData cfg gDev rawData).2 = rawData ∧
    processData cfg gDev (processData cfg gDev rawData).2 = processData cfg gDev rawData ∧
    (∀ e ∈ rawData.map Prod.snd, ∀ kd ∈ processEntryDevices cfg gDev e,
      kd.2.powerflow = scalePowerFlow (unitMultiplier e.powerflow.unit) e.powerflow ∧
      (∀ p : ℚ, e.powerflow.GRID.currentPower = some p →
        kd.2.powerflow.GRID.currentPower = some (p * unitMultiplier e.powerflow.unit)) ∧
      (∀ p : ℚ, e.powerflow.PV.currentPower = some p →
        kd.2.powerflow.PV.currentPower = some (p * unitMultiplier e.powerflow.unit)) ∧
      (∀ p : ℚ, e.powerflow.LOAD.currentPower = some p →
        kd.2.powerflow.LOAD.currentPower = some (p * unitMultiplier e.powerflow.unit))) := by
  refine ⟨rfl, rfl, ?_⟩
  intro e _ kd hkd
  unfold processEntryDevices at hkd
  obtain ⟨inv, -, rfl⟩ := List.mem_map.mp hkd
  refine ⟨rfl, ?_, ?_, ?_⟩ <;> intro p hp <;>
    simp [scalePowerFlow, scaleNode, hp]

/-- Witness for C1 at the sample one-site cache: the cache is returned
unchanged and the PV reading `7/2 kW` is scaled exactly once. -/
theorem C1_processData_pure_witness :
    (processData true (fun _ => false) [(1, sampleEntry)]).2 = [(1, sampleEntry)] ∧
    sampleDevicePair.2.powerflow.PV.currentPower =
      some ((7 / 2) * unitMultiplier sampleEntry.powerflow.unit) := by
  have h := C1_processData_pure true (fun _ => false) [(1, sampleEntry)]
  refine ⟨h.1, ?_⟩
  have hmem : sampleDevicePair ∈ processEntryDevices true (fun _ => false) sampleEntry := by
    have heq : processEntryDevices true (fun _ => false) sampleEntry = [sampleDevicePair] := rfl
    rw [heq]
    exact List.mem_singleton_self _
  have h3 := h.2.2 sampleEntry (by simp) sampleDevicePair hmem
  exact h3.2.2.1 (7 / 2) rfl

/-- C3: within one aggregation cycle over sites with pairwise distinct
ids, a site's cache entry is overwritten with the joined snapshot iff
both of its endpoint fetches succeeded; if at least one failed, the
cache at that site's key is exactly what it was before the cycle. -/
theorem C3_commit_iff_both_fetches (uuid : String) (cache : List (ℕ × RawEntry))
    (xs : List SiteFetch) (x : SiteFetch) (hmem : x ∈ xs)
    (hnodup : (xs.map (fun y => y.site.id)).Nodup) :
    (∀ (i : Inventory) (p : PowerFlow), x.inv = some i → x.pf = some p →
      lookupA x.site.id (subscribeCycle uuid cache xs) =
        some { connection := uuid, site := x.site, inventory := i, powerflow := p }) ∧
    ((x.inv.isNone ∨ x.pf.isNone) →
      lookupA x.site.id (subscribeCycle uuid cache xs) = lookupA x.site.id cache) := by
  induction xs generalizing cache with
  | nil => cases hmem
  | cons y t ih =>
    rw [List.map_cons, List.nodup_cons] at hnodup
    rcases List.mem_cons.mp hmem with rfl | hx
    · -- the site at the head of the loop: later sites have different ids
      constructor
      · intro i p hi hp
        rw [subscribeCycle_cons, lookupA_subscribeCycle_not_mem uuid t _ _ hnodup.1,
          hi, hp, subscribeSite_commit]
        exact lookupA_upsertA_self _ _ _
      · intro hnone
        rw [subscribeCycle_cons, lookupA_subscribeCycle_not_mem uuid t _ _ hnodup.1,
          subscribeSite_skip _ _ _ _ _ hnone]
    · -- the site sits deeper in the loop: the head site's commit does
      -- not touch its key
      have hne : x.site.id ≠ y.site.id := by
        intro hid
        exact hnodup.1 (hid ▸ List.mem_map_of_mem _ hx)
      have ih' := ih (subscribeSite uuid cache y.site y.inv y.pf) hx hnodup.2
      constructor
      · intro i p hi hp
        rw [subscribeCycle_cons]
        exact ih'.1 i p hi hp
      · intro hnone
        rw [subscribeCycle_cons, ih'.2 hnone]
        exact lookupA_subscribeSite_other uuid cache y.site y.inv y.pf _ hne

/-- Witness for C3: a one-site cycle with both fetches succeeding
commits the joined snapshot (which equals `sampleEntry`) into an empty
cache. -/
theorem C3_commit_iff_both_fetches_witness :
    lookupA sampleSite.id (subscribeCycle "conn-1" [] [sampleSiteFetch]) =
      some { connection := "conn-1", site := sampleSite
             inventory := { inverters := [sampleInverter] }
             powerflow := samplePowerFlow } :=
  (C3_commit_iff_both_fetches "conn-1" [] [sampleSiteFetch] sampleSiteFetch
    (List.mem_singleton_self _) (by simp)).1
    { inverters := [sampleInverter] } samplePowerFlow rfl rfl

/-- C5: with a retry budget `maxRetries ≥ 1`, `fetchWrapper` performs at
most `maxRetries - 1` additional attempts after a transport failure or
non-success status, one backoff sleep precedes each re-attempt, and the
delay before re-attempt `attempt + 1` is exactly `500 * 2 ^ (attempt -
1)` ms with `attempt` counted from 1 (delays 500, 1000, 2000, …). -/
theorem C5_fetchWrapper_backoff (o : ℕ → FetchOutcome) (maxRetries : ℕ)
    (h : 1 ≤ maxRetries) :
    (fetchWrapperRun o maxRetries 0).2.1 ≤ maxRetries ∧
    (fetchWrapperRun o maxRetries 0).2.2.length + 1 = (fetchWrapperRun o maxRetries 0).2.1 ∧
    (∀ attempt : ℕ, 1 ≤ attempt → attempt < (fetchWrapperRun o maxRetries 0).2.1 →
      ((fetchWrapperRun o maxRetries 0).2.2)[attempt - 1]? =
        some (500 * 2 ^ (attempt - 1))) := by
  have hspec := fetchWrapperRun_delays o maxRetries 0
  refine ⟨?_, hspec.2.1.symm, ?_⟩
  · have := hspec.2.2
    simp only [le_max_iff] at this
    omega
  · intro attempt h1 h2
    have hlen : attempt - 1 < (fetchWrapperRun o maxRetries 0).2.2.length := by
      have := hspec.2.1
      omega
    rw [hspec.1, List.getElem?_map, List.getElem?_range hlen]
    simp

/-- Witness for C5: three attempts against an always-failing endpoint
sleep 500 ms before the second attempt and 1000 ms before the third. -/
theorem C5_fetchWrapper_backoff_witness :
    ((fetchWrapperRun (fun _ => FetchOutcome.failure) 3 0).2.2)[0]? =
      some (500 * 2 ^ 0) ∧
    ((fetchWrapperRun (fun _ => FetchOutcome.failure) 3 0).2.2)[1]? =
      some (500 * 2 ^ 1) := by
  have h := C5_fetchWrapper_backoff (fun _ => FetchOutcome.failure) 3 (by norm_num)
  exact ⟨h.2.2 1 (by norm_num) (by decide), h.2.2 2 (by norm_num) (by decide)⟩

/-- C7: a device first observed with `excluded = true` is recorded as
tracked-excluded, and the registry never instantiates a `SolarInverter`
for that serial number — neither on that pass nor on any later cycle,
whatever records (including non-excluded ones for the same serial) later
cycles carry. -/
theorem C7_excluded_never_instantiated (cached : List String)
    (tracked : List (String × TrackedEntry)) (d0 : Device)
    (dss : List (List Device))
    (hex : d0.excluded = true) (hnew : lookupA d0.serialNumber tracked = none) :
    RegistryAction.instantiate d0.serialNumber ∉ (processDevice cached tracked d0).1 ∧
    RegistryAction.instantiate d0.serialNumber ∉
      (processCycles cached (processDevice cached tracked d0).2 dss).1 := by
  -- after the first observation the serial is tracked (as excluded)
  have hstep1 : (trackExcludedNew cached tracked d0).2 =
      upsertA d0.serialNumber ⟨generateUUID d0.serialNumber, true⟩ tracked := by
    unfold trackExcludedNew
    rw [if_pos ⟨by simp [hnew], hex⟩]
  have hsome1 : (lookupA d0.serialNumber (trackExcludedNew cached tracked d0).2).isSome = true := by
    rw [hstep1, lookupA_upsertA_self]
    rfl
  have hsome2 : (lookupA d0.serialNumber (processDevice cached tracked d0).2).isSome = true :=
    lookupA_instantiateNew_preserves _ d0 _ hsome1
  constructor
  · -- block 2 is skipped (`excluded` is true) and blocks 1/3 never instantiate
    intro hmem
    simp only [processDevice, List.mem_append] at hmem
    rcases hmem with (hmem | hmem) | hmem
    · exact instantiate_not_mem_trackExcludedNew cached tracked d0 _ hmem
    · obtain ⟨-, hfalse, -⟩ := instantiate_mem_instantiateNew _ d0 _ hmem
      rw [hex] at hfalse
      cases hfalse
    · exact instantiate_not_mem_emitUpdateActs _ d0 _ hmem
  · exact (processCycles_preserves cached dss _ _ hsome2).1

/-- Witness for C7: the sample device observed first as excluded is
never instantiated, even though the next cycle carries the same serial
with `excluded = false`. -/
theorem C7_excluded_never_instantiated_witness :
    RegistryAction.instantiate sampleExcludedDevice.serialNumber ∉
      (processDevice [] [] sampleExcludedDevice).1 ∧
    RegistryAction.instantiate sampleExcludedDevice.serialNumber ∉
      (processCycles [] (processDevice [] [] sampleExcludedDevice).2
        [[sampleDevicePair.2]]).1 :=
  C7_excluded_never_instantiated [] [] sampleExcludedDevice [[sampleDevicePair.2]] rfl rfl

/-- C8: an update whose edge list contains `{from: LOAD, to: GRID}`
(case-insensitively) writes `ChargingState = CHARGING` and
`StatusLowBattery = BATTERY_LEVEL_NORMAL`; one containing
`{from: GRID, to: LOAD}` writes `ChargingState = NOT_CHARGING` and
`StatusLowBattery = BATTERY_LEVEL_LOW`; one containing neither leaves
`ChargingState` ending at the default `NOT_CHARGING` and never writes
`StatusLowBattery` at all. -/
theorem C8_charging_flags (pv peak : ℚ) (conns : Option (List Flow)) :
    (hasFlowEdge conns "LOAD" "GRID" = true →
      BatteryServiceWrite.chargingState .charging ∈ batteryServiceWrites pv peak conns ∧
      BatteryServiceWrite.statusLowBattery .batteryLevelNormal ∈
        batteryServiceWrites pv peak conns) ∧
    (hasFlowEdge conns "GRID" "LOAD" = true →
      BatteryServiceWrite.chargingState .notCharging ∈ batteryServiceWrites pv peak conns ∧
      BatteryServiceWrite.statusLowBattery .batteryLevelLow ∈
        batteryServiceWrites pv peak conns) ∧
    (hasFlowEdge conns "LOAD" "GRID" = false → hasFlowEdge conns "GRID" "LOAD" = false →
      lastChargingState (batteryServiceWrites pv peak conns) = some .notCharging ∧
      (∀ v : LowBatteryValue,
        BatteryServiceWrite.statusLowBattery v ∉ batteryServiceWrites pv peak conns)) := by
  cases conns with
  | none =>
    refine ⟨?_, ?_, ?_⟩
    · intro hedge; simp [hasFlowEdge] at hedge
    · intro hedge; simp [hasFlowEdge] at hedge
    · intro _ _
      constructor
      · rfl
      · intro v
        simp [batteryServiceWrites]
  | some flows =>
    have hmemWrites : ∀ (w : BatteryServiceWrite) (e : Flow), e ∈ flows →
        w ∈ flowWrites e → w ∈ batteryServiceWrites pv peak (some flows) := by
      intro w e he hw
      simp only [batteryServiceWrites, List.mem_append, List.mem_flatten]
      exact Or.inr ⟨flowWrites e, List.mem_map_of_mem _ he, hw⟩
    refine ⟨?_, ?_, ?_⟩
    · intro hedge
      simp only [hasFlowEdge, List.any_eq_true, Bool.and_eq_true, beq_iff_eq] at hedge
      obtain ⟨e, he, hf, ht⟩ := hedge
      have hw : flowWrites e =
          [BatteryServiceWrite.chargingState .charging,
           BatteryServiceWrite.statusLowBattery .batteryLevelNormal] ++
          (if toUpperCase e.flowFrom = "GRID" ∧ toUpperCase e.flowTo = "LOAD" then
            [BatteryServiceWrite.chargingState .notCharging,
             BatteryServiceWrite.statusLowBattery .batteryLevelLow] else []) := by
        unfold flowWrites
        rw [if_pos ⟨hf, ht⟩]
      constructor
      · exact hmemWrites _ e he (by rw [hw]; simp)
      · exact hmemWrites _ e he (by rw [hw]; simp)
    · intro hedge
      simp only [hasFlowEdge, List.any_eq_true, Bool.and_eq_true, beq_iff_eq] at hedge
      obtain ⟨e, he, hf, ht⟩ := hedge
      have hw : BatteryServiceWrite.chargingState .notCharging ∈ flowWrites e ∧
          BatteryServiceWrite.statusLowBattery .batteryLevelLow ∈ flowWrites e := by
        have h2nd : (if toUpperCase e.flowFrom = "GRID" ∧ toUpperCase e.flowTo = "LOAD" then
            [BatteryServiceWrite.chargingState .notCharging,
             BatteryServiceWrite.statusLowBattery .batteryLevelLow] else []) =
            [BatteryServiceWrite.chargingState .notCharging,
             BatteryServiceWrite.statusLowBattery .batteryLevelLow] := if_pos ⟨hf, ht⟩
        unfold flowWrites
        rw [h2nd]
        constructor <;> simp
      exact ⟨hmemWrites _ e he hw.1, hmemWrites _ e he hw.2⟩
    · intro h1 h2
      simp only [hasFlowEdge, List.any_eq_false, Bool.and_eq_true, beq_iff_eq,
        not_and] at h1 h2
      have hempty : ∀ e ∈ flows, flowWrites e = [] := by
        intro e he
        unfold flowWrites
        rw [if_neg, if_neg, List.append_nil]
        · intro hc
          exact h2 e he hc.1 hc.2
        · intro hc
          exact h1 e he hc.1 hc.2
      have hflat : (flows.map flowWrites).flatten = [] := by
        rw [List.flatten_eq_nil_iff]
        intro l hl
        obtain ⟨e, he, rfl⟩ := List.mem_map.mp hl
        exact hempty e he
      have hlist : batteryServiceWrites pv peak (some flows) =
          [BatteryServiceWrite.batteryLevel (scaleValue pv 0 peak 0 100),
           BatteryServiceWrite.chargingState .notCharging] := by
        simp [batteryServiceWrites, hflat]
      rw [hlist]
      constructor
      · rfl
      · intro v
        simp

/-- Witness for C8: a single lower-case `load → grid` edge yields the
CHARGING / BATTERY_LEVEL_NORMAL writes, and an edge list with neither
edge leaves the final charging state at NOT_CHARGING. -/
theorem C8_charging_flags_witness :
    (BatteryServiceWrite.chargingState .charging ∈
      batteryServiceWrites 1 2 (some [{ flowFrom := "load", flowTo := "grid" }]) ∧
     BatteryServiceWrite.statusLowBattery .batteryLevelNormal ∈
      batteryServiceWrites 1 2 (some [{ flowFrom := "load", flowTo := "grid" }])) ∧
    lastChargingState
      (batteryServiceWrites 1 2 (some [{ flowFrom := "PV", flowTo := "Load" }])) =
      some .notCharging :=
  ⟨(C8_charging_flags 1 2 (some [{ flowFrom := "load", flowTo := "grid" }])).1
      (by decide),
   ((C8_charging_flags 1 2 (some [{ flowFrom := "PV", flowTo := "Load" }])).2.2
      (by decide) (by decide)).1⟩

end SolarEdge
